import Mathlib

/-!
Shallow embedding of the crypto-data-collector repository
(`src/collector.py`, `src/api.py`) for checking its natural-language
specification.

A symbol's SQLite table is modelled as a list of rows in insertion order.
The table schema (one durable table per symbol, columns as in the Record
shape, unique constraint on `open_time`) is not created inside `src/`;
its unique key is modelled from the spec: "unique constraint on
`intervalStart`" (section 6), which is also what `INSERT OR IGNORE` in
`insert_kline` relies on.
-/

namespace Collector

/-- One kline row: `open_time` is the interval-start key (epoch ms); the
remaining eleven tuple fields are opaque pass-through payload that the
engine never interprets, modelled as a list of integers. -/
structure Kline where
  open_time : Nat
  payload : List Int
  deriving DecidableEq, Repr

/-- A symbol's `kline` table: rows in insertion order. -/
abbrev Store := List Kline

/-- `N_MINUTES = 1000` from `collector.py`. -/
def N_MINUTES : Nat := 1000

/-- The interval length: one minute in milliseconds. -/
def intervalLen : Nat := 60000

/-- `insert_kline(db_path, kline)`: `INSERT OR IGNORE` against the unique
key on `open_time` — appends the row iff no row with that key exists. -/
def insert_kline (store : Store) (k : Kline) : Store :=
  if store.any (fun r => r.open_time == k.open_time) then store
  else store ++ [k]

/-- `SELECT MAX(open_time) FROM kline`: `none` on an empty table,
otherwise the maximum key. -/
def sqlMaxOpenTime (store : Store) : Option Nat :=
  (store.map (·.open_time)).max?

/-- `get_last_open_time(db_path)`: runs `SELECT MAX(open_time)` and then
`return row[0] if row and row[0] else None` — Python truthiness, so a
`NULL` max (empty table) and a max of `0` both come back as `None`. -/
def get_last_open_time (store : Store) : Option Nat :=
  match sqlMaxOpenTime store with
  | some v => if v ≠ 0 then some v else none
  | none => none

/-- `int(datetime(2017, 8, 17, 4, 0).timestamp()) * 1000` from
`batch_fill_history`.  In the source this is timezone-dependent (a naive
datetime); modelled at UTC.  Only its role as a fixed constant matters. -/
def HISTORICAL_FLOOR : Nat := 1502942400000

/-- Cursor initialisation of `batch_fill_history` (lines 67–74):
`last_time + 60000` when `get_last_open_time` returned a value, else the
`earliest_time` argument when given, else the fixed 2017 constant. -/
def initCursor (store : Store) (earliest_time : Option Nat) : Nat :=
  match get_last_open_time store with
  | some t => t + intervalLen
  | none =>
    match earliest_time with
    | some e => e
    | none => HISTORICAL_FLOOR

/-- The batch limit of line 77:
`limit = min(N_MINUTES, (now_ms - start_ms) // 60000 + 1)`. -/
def batchLimit (now_ms start_ms : Nat) : Nat :=
  min N_MINUTES ((now_ms - start_ms) / intervalLen + 1)

/-- The spec's batch-limit formula (section 4.3 step 2a):
`min(maxBatchSize, ceil((now - cursor) / intervalLen))`. -/
def specBatchLimit (now_ms start_ms : Nat) : Nat :=
  min N_MINUTES ((now_ms - start_ms + (intervalLen - 1)) / intervalLen)

/-- An exception raised by a collaborator (network failure, bad HTTP
status, storage failure, ...); its identity is never inspected. -/
structure Err where
  msg : String
  deriving Repr, DecidableEq

/-- The remote source as seen by `batch_fill_history`:
`requests.get(url, params={symbol, "1m", startTime, limit})` followed by
`raise_for_status` and `.json()` — a function of the requested start time
and limit that either raises or yields a batch of klines. -/
abbrev SourceFn := Nat → Nat → Except Err (List Kline)

/-- A store-insert primitive that may raise: the resulting store is the
rows durably written before the point of failure (SQLite writes before a
raised exception persist), plus the error when one was raised.
`insert_kline` itself is the non-raising instance `insOk`. -/
abbrev InsertFn := Store → Kline → Store × Option Err

/-- The storage-available instance of `InsertFn`: plain `insert_kline`. -/
def insOk : InsertFn := fun store k => (insert_kline store k, none)

/-- `for kline in data: insert_kline(db_path, kline)` — inserts a batch
in order; stops at (and reports) the first raised insert error, keeping
everything written up to that point. -/
def insertBatch (ins : InsertFn) : Store → List Kline → Store × Option Err
  | store, [] => (store, none)
  | store, k :: ks =>
    match ins store k with
    | (store', none) => insertBatch ins store' ks
    | (store', some e) => (store', some e)

/-- `data[-1][0]` of a non-empty batch `k :: ks`. -/
def lastOpenTime (k : Kline) (ks : List Kline) : Nat :=
  (ks.getLastD k).open_time

/-- The `while start_ms < now_ms` loop of `batch_fill_history`
(lines 76–97), fuel-indexed.  One iteration: compute
`limit = min(N_MINUTES, (now_ms - start_ms) // 60000 + 1)`, fetch; a
raised fetch error or a raised insert error is caught by the
`try/except` and breaks the loop (the function returns normally with
everything inserted so far); an empty batch breaks; otherwise the batch
is inserted and `start_ms = data[-1][0] + 60000`.  `none` is the model
artifact for running out of fuel before the loop finished. -/
def fillLoop (src : SourceFn) (ins : InsertFn) (now_ms : Nat) :
    Nat → Nat → Store → Option Store
  | 0, start_ms, store => if start_ms < now_ms then none else some store
  | fuel + 1, start_ms, store =>
    if start_ms < now_ms then
      match src start_ms (batchLimit now_ms start_ms) with
      | .error _ => some store
      | .ok [] => some store
      | .ok (k :: ks) =>
        match insertBatch ins store (k :: ks) with
        | (store', some _) => some store'
        | (store', none) =>
          fillLoop src ins now_ms fuel (lastOpenTime k ks + intervalLen) store'
    else some store

/-- `batch_fill_history(symbol, db_path, earliest_time)`: initialise the
cursor from the store's tail (or the floor) and run the fill loop. -/
def batch_fill_history (src : SourceFn) (ins : InsertFn) (now_ms : Nat)
    (fuel : Nat) (store : Store) (earliest_time : Option Nat) : Option Store :=
  fillLoop src ins now_ms fuel (initCursor store earliest_time) store

/-- `get_last_n_open_times(db_path, n)`:
`SELECT open_time FROM kline ORDER BY open_time DESC LIMIT n` collected
into a set — the `n` largest keys, modelled as the first `n` entries of
the keys sorted descending. -/
def get_last_n_open_times (store : Store) (n : Nat) : List Nat :=
  ((store.map (·.open_time)).insertionSort (· ≥ ·)).take n

/-- The tail-reconcile phase of `minute_loop` (lines 123–129):
`db_minutes = get_last_n_open_times(db_path, N_MINUTES)` computed once,
then every fetched kline whose key is not in `db_minutes` goes through
`insert_kline`. -/
def tail_reconcile (store : Store) (klines : List Kline) (n : Nat) : Store :=
  klines.foldl
    (fun st k =>
      if k.open_time ∈ get_last_n_open_times store n then st
      else insert_kline st k)
    store

/-- The configured symbol list of `collector.py`. -/
def SYMBOLS : List String :=
  ["BTCUSDT", "ETHUSDT", "BNBUSDT", "XRPUSDT", "SOLUSDT",
   "DOGEUSDT", "ADAUSDT", "TRXUSDT", "LINKUSDT", "AVAXUSDT"]

/-- One symbol's reconciliation pass (the body of the `try` in
`minute_loop`, state-and-exception view): given the symbol's current
store it yields the store after the pass — durable writes made before a
raised exception persist — together with the error when one was raised.
The concrete pass composes `batch_fill_history` and `tail_reconcile`;
the sweep theorems quantify over the pass, as the claim quantifies over
"any error raised during one symbol's reconciliation pass". -/
abbrev PassFn := String → Store → Store × Option Err

/-- One step of the per-tick sweep: process symbol `sym` — the
`try/except` keeps the store the pass produced and swallows the error
(logging it), so the state map is updated only at `sym`. -/
def sweepStep (pass : PassFn) (stores : String → Store) (sym : String) :
    String → Store :=
  fun s => if s = sym then (pass sym (stores s)).1 else stores s

/-- One full tick of `minute_loop` (lines 118–134): `for symbol in
SYMBOLS`, each symbol's pass guarded by its own `try/except`. -/
def minute_sweep (pass : PassFn) (stores : String → Store) : String → Store :=
  SYMBOLS.foldl (sweepStep pass) stores

/-- The scheduling loop itself: `while True`, one sweep per tick (the
sleep is irrelevant to state).  `n` ticks of `minute_loop`. -/
def minute_loop_ticks (pass : PassFn) (stores : String → Store) :
    Nat → String → Store
  | 0 => stores
  | n + 1 => minute_sweep pass (minute_loop_ticks pass stores n)

/-- A stub pass for exercising the sweep: reports an error only for
ETHUSDT, appends one record for every other symbol. -/
def passStubB : PassFn := fun sym st =>
  if sym = "ETHUSDT" then (st, some ⟨"SourceUnavailable"⟩)
  else (st ++ [⟨60000, []⟩], none)

/-- A symbol's full reconciliation pass as `minute_loop` composes it:
`batch_fill_history` (which never raises — its loop body is wrapped in
`try/except`) followed by the tail-reconcile phase over a fetched batch
`tailKlines`.  `none` only when the fill loop ran out of model fuel. -/
def reconcile (src : SourceFn) (ins : InsertFn) (now_ms : Nat) (fuel : Nat)
    (earliest_time : Option Nat) (tailKlines : List Kline) (store : Store) :
    Option Store :=
  (batch_fill_history src ins now_ms fuel store earliest_time).map
    (fun st => tail_reconcile st tailKlines N_MINUTES)

/-- Python's `str.isdigit` restricted to the ASCII digit strings that
occur as timestamps: non-empty and all characters digits (over the
string's character list). -/
def pyIsDigit (s : String) : Bool :=
  !s.data.isEmpty && s.data.all (·.isDigit)

/-- Python's `int(val)` on a digit string: base-10 value of the
character list. -/
def strToNat (s : String) : Nat :=
  s.data.foldl (fun acc c => acc * 10 + (c.toNat - 48)) 0

/-- The HTTP 400 raised by `to_unix_ms` on a failed parse. -/
inductive HttpErr where
  | badRequest
  deriving Repr, DecidableEq

/-- `to_unix_ms(val)` from `src/api.py` (lines 30–42).  `dparse` stands
for `dateutil.parser.parse` composed with `int(dt.timestamp()*1000)`
(`none` when it raises).  A falsy input (`None` or `""`) yields no
bound; a digit string is parsed as an integer `n` and auto-detected:
returned as-is when `n > 10**11`, else multiplied by 1000; anything else
goes to the date parser, whose failure raises HTTP 400. -/
def to_unix_ms (dparse : String → Option Nat) (val : Option String) :
    Except HttpErr (Option Nat) :=
  match val with
  | none => .ok none
  | some s =>
    if s = "" then .ok none
    else if pyIsDigit s then
      let n := strToNat s
      .ok (some (if n > 10 ^ 11 then n else n * 1000))
    else
      match dparse s with
      | some ms => .ok (some ms)
      | none => .error HttpErr.badRequest

/-! ## Helper lemmas -/

theorem get_last_open_time_eq_some_iff (store : Store) (v : Nat) :
    get_last_open_time store = some v ↔ sqlMaxOpenTime store = some v ∧ v ≠ 0 := by
  unfold get_last_open_time
  cases h : sqlMaxOpenTime store with
  | none => simp
  | some m =>
    by_cases hm : m = 0
    · subst hm
      simp only [ne_eq, not_true_eq_false, if_false, reduceCtorEq, false_iff, not_and]
      rintro ⟨rfl⟩
      simp
    · simp only [ne_eq, hm, not_false_eq_true, if_true, Option.some.injEq]
      constructor
      · rintro rfl
        exact ⟨rfl, hm⟩
      · rintro ⟨⟨rfl⟩, _⟩
        rfl

theorem get_last_open_time_eq_none_iff (store : Store) :
    get_last_open_time store = none ↔
      sqlMaxOpenTime store = none ∨ sqlMaxOpenTime store = some 0 := by
  unfold get_last_open_time
  cases h : sqlMaxOpenTime store with
  | none => simp
  | some m =>
    by_cases hm : m = 0
    · subst hm; simp
    · simp [hm]

/-! ## C1: insert idempotence -/

/-- C1.  Insert idempotence: on any store whose keys are unique (the
table's unique constraint), inserting the same record twice via
`insert_kline` leaves exactly one row with that record's key, and the
second call leaves the table unchanged. -/
theorem insert_kline_idempotent (store : Store) (k : Kline)
    (hnodup : (store.map (·.open_time)).Nodup) :
    ((insert_kline (insert_kline store k) k).map (·.open_time)).count k.open_time = 1 ∧
    insert_kline (insert_kline store k) k = insert_kline store k := by
  by_cases h : store.any (fun r => r.open_time == k.open_time)
  · have hmem : k.open_time ∈ store.map (·.open_time) := by
      rcases List.any_eq_true.mp h with ⟨r, hr, hrk⟩
      have hk : r.open_time = k.open_time := by simpa using hrk
      exact List.mem_map.mpr ⟨r, hr, hk⟩
    constructor
    · simp only [insert_kline, h, if_true]
      exact List.count_eq_one_of_mem hnodup hmem
    · simp [insert_kline, h]
  · have hcond : ((store ++ [k]).any (fun r => r.open_time == k.open_time)) = true := by
      simp [List.any_append]
    constructor
    · simp only [insert_kline, h, if_false, Bool.false_eq_true, hcond, if_true]
      have hnot : k.open_time ∉ store.map (·.open_time) := by
        intro hmem
        rcases List.mem_map.mp hmem with ⟨r, hr, hrk⟩
        exact h (List.any_eq_true.mpr ⟨r, hr, by simp [hrk]⟩)
      simp [List.count_eq_zero_of_not_mem hnot]
    · simp [insert_kline, h, hcond]

/-- Witness for C1 at a concrete store and record. -/
theorem insert_kline_idempotent_witness :
    ((insert_kline (insert_kline [⟨0, []⟩] ⟨60000, [1]⟩) ⟨60000, [1]⟩).map
        (·.open_time)).count 60000 = 1 ∧
    insert_kline (insert_kline [⟨0, []⟩] ⟨60000, [1]⟩) ⟨60000, [1]⟩ =
      insert_kline [⟨0, []⟩] ⟨60000, [1]⟩ :=
  insert_kline_idempotent [⟨0, []⟩] ⟨60000, [1]⟩ (by decide)

/-! ## C6: tail contract -/

/-- C6 counterexample.  On the non-empty table whose single row has key
`0`, the maximum key present is `0`, yet `get_last_open_time` returns
absent — Python's `row[0] if row and row[0] else None` treats the key
`0` as falsy — refuting "returns absent if and only if the table is
empty". -/
theorem get_last_open_time_zero_key_cex :
    get_last_open_time [⟨0, []⟩] = none ∧
    sqlMaxOpenTime [⟨0, []⟩] = some 0 ∧
    ([⟨0, []⟩] : Store) ≠ [] := by
  refine ⟨rfl, rfl, by simp⟩

/-- C6 amended.  `get_last_open_time` returns `some v` exactly when `v`
is a key present in the table, every key is at most `v`, and `v ≠ 0`; it
returns absent exactly when the table is empty or its maximum key is
`0`. -/
theorem get_last_open_time_amended (store : Store) (v : Nat) :
    (get_last_open_time store = some v ↔
      v ∈ store.map (·.open_time) ∧ (∀ u ∈ store.map (·.open_time), u ≤ v) ∧ v ≠ 0) ∧
    (get_last_open_time store = none ↔ store = [] ∨ sqlMaxOpenTime store = some 0) := by
  constructor
  · rw [get_last_open_time_eq_some_iff]
    unfold sqlMaxOpenTime
    rw [List.max?_eq_some_iff']
    tauto
  · rw [get_last_open_time_eq_none_iff]
    unfold sqlMaxOpenTime
    rw [List.max?_eq_none_iff, List.map_eq_nil_iff]

/-! ## C5: cursor initialisation -/

/-- C5.  Cursor initialisation of `batch_fill_history`: when the store's
tail (`get_last_open_time`) exists the cursor is the tail plus one
interval; when it is absent the cursor is the symbol's floor — the
`earliest_time` argument if given, else the fixed 2017 constant; in
particular an empty store with no `earliest_time` starts at the fixed
historical epoch constant. -/
theorem initCursor_spec (store : Store) (et : Option Nat) :
    (∀ t, get_last_open_time store = some t →
      initCursor store et = t + intervalLen) ∧
    (get_last_open_time store = none →
      initCursor store et = et.getD HISTORICAL_FLOOR) ∧
    initCursor [] none = HISTORICAL_FLOOR := by
  refine ⟨fun t ht => ?_, fun hn => ?_, rfl⟩
  · unfold initCursor
    rw [ht]
  · unfold initCursor
    rw [hn]
    cases et <;> rfl

/-! ## C4: batch limit formula -/

/-- C4 counterexample.  At cursor `0` with `now = 60000` (cursor
strictly before now, one full interval remaining), the code requests
`limit = min(1000, (60000 - 0) // 60000 + 1) = 2`, while the spec's
`min(1000, ceil((now - cursor) / 60000))` gives `1`; the loop passes
exactly `batchLimit` to the source, as the differing final stores under
a limit-sensitive source show. -/
theorem batchLimit_cex :
    (0 : Nat) < 60000 ∧
    batchLimit 60000 0 = 2 ∧
    specBatchLimit 60000 0 = 1 ∧
    fillLoop (fun _ l => if l = 2 then .ok [⟨0, []⟩] else .ok [])
        insOk 60000 2 0 [] = some [⟨0, []⟩] := by
  refine ⟨by decide, by decide, by decide, by decide⟩

/-- C4 amended.  The requested batch limit is
`min(1000, (now - cursor) / 60000 + 1)`, which equals
`min(1000, ceil((now - cursor + 1) / 60000))`; it coincides with the
spec's `min(1000, ceil((now - cursor) / 60000))` exactly on the
iterations where `now - cursor` is not a multiple of the interval
length. -/
theorem batchLimit_amended (now_ms start_ms : Nat) :
    batchLimit now_ms start_ms =
      min N_MINUTES ((now_ms - start_ms + 1 + (intervalLen - 1)) / intervalLen) ∧
    (start_ms < now_ms → ¬ (intervalLen ∣ (now_ms - start_ms)) →
      batchLimit now_ms start_ms = specBatchLimit now_ms start_ms) := by
  unfold batchLimit specBatchLimit N_MINUTES intervalLen
  constructor
  · omega
  · intro h hdvd
    rw [Nat.dvd_iff_mod_eq_zero] at hdvd
    omega

/-! ## C2 and C3: loop termination -/

theorem fillLoop_isSome_of_progress (src : SourceFn) (ins : InsertFn) (now_ms : Nat)
    (hsrc : ∀ s l k ks, src s l = .ok (k :: ks) → s ≤ lastOpenTime k ks) :
    ∀ fuel start_ms store, now_ms - start_ms ≤ fuel * intervalLen →
      (fillLoop src ins now_ms fuel start_ms store).isSome := by
  intro fuel
  induction fuel with
  | zero =>
    intro start_ms store hle
    unfold fillLoop
    have : ¬ start_ms < now_ms := by omega
    simp [this]
  | succ n ih =>
    intro start_ms store hle
    unfold fillLoop
    by_cases h : start_ms < now_ms
    · simp only [h, if_true]
      cases hb : src start_ms (batchLimit now_ms start_ms) with
      | error e => rfl
      | ok batch =>
        cases batch with
        | nil => rfl
        | cons k ks =>
          dsimp only
          rcases hins : insertBatch ins store (k :: ks) with ⟨store', oerr⟩
          cases oerr with
          | some e => rfl
          | none =>
            apply ih
            have hlast : start_ms ≤ lastOpenTime k ks := hsrc _ _ _ _ hb
            simp only [show intervalLen = 60000 from rfl] at hle ⊢
            omega
    · simp [h]

/-- C2.  GapFiller termination: whenever every non-empty batch the
source returns is ascending by key with its last record's key at or
after the requested start time, the fill loop reaches its exit within
`(now - cursor) / 60000 + 1` iterations and returns normally — even when
batches are shorter than the requested limit — because the cursor
advances to `last(batch).open_time + 60000` after each batch. -/
theorem batch_fill_terminates (src : SourceFn) (ins : InsertFn)
    (now_ms start_ms : Nat) (store : Store)
    (hsrc : ∀ s l k ks, src s l = .ok (k :: ks) →
      (((k :: ks).map (·.open_time)).Pairwise (· < ·) ∧ s ≤ lastOpenTime k ks)) :
    (fillLoop src ins now_ms ((now_ms - start_ms) / intervalLen + 1)
      start_ms store).isSome := by
  apply fillLoop_isSome_of_progress src ins now_ms
    (fun s l k ks hb => (hsrc s l k ks hb).2)
  simp only [show intervalLen = 60000 from rfl]
  omega

/-- Witness for C2: a source serving exactly one record at the requested
start fulfils the precondition; the loop from cursor `0` to
`now = 180000` terminates. -/
theorem batch_fill_terminates_witness :
    (fillLoop (fun s _ => .ok [⟨s, []⟩]) insOk 180000
      ((180000 - 0) / intervalLen + 1) 0 []).isSome := by
  apply batch_fill_terminates (fun s _ => .ok [⟨s, []⟩]) insOk 180000 0 []
  intro s l k ks hb
  rw [Except.ok.injEq] at hb
  cases hb
  exact ⟨by simp, by simp [lastOpenTime]⟩

/-- C3 counterexample.  A stub source whose every batch's last key
equals the requested start (`src s l = [record with key s]`) does not
stop the loop after one iteration and surfaces no error: from cursor `0`
with `now = 180000` the loop runs three iterations — the cursor still
advances by `last + 60000` — inserting three records, and returns
normally; the embedded loop has no error channel because the code
surfaces none. -/
theorem no_progress_cex :
    fillLoop (fun s _ => .ok [⟨s, []⟩]) insOk 180000 10 0 [] =
      some [⟨0, []⟩, ⟨60000, []⟩, ⟨120000, []⟩] := by
  decide

/-- C3 amended.  The code contains no no-progress detection and no
`NoProgress` signal: a source whose every non-empty batch has its last
key equal to the requested start still advances the cursor by exactly
one interval per batch, so the pass terminates normally (within
`(now - cursor) / 60000 + 1` iterations) with no error surfaced,
instead of stopping after one iteration. -/
theorem no_progress_amended (src : SourceFn) (ins : InsertFn)
    (now_ms start_ms : Nat) (store : Store)
    (hstale : ∀ s l k ks, src s l = .ok (k :: ks) → lastOpenTime k ks = s) :
    (fillLoop src ins now_ms ((now_ms - start_ms) / intervalLen + 1)
      start_ms store).isSome := by
  apply fillLoop_isSome_of_progress src ins now_ms
    (fun s l k ks hb => Nat.le_of_eq (hstale s l k ks hb).symm)
  simp only [show intervalLen = 60000 from rfl]
  omega

/-! ## C7: tail reconciliation -/

theorem mem_insert_kline (st : Store) (k r : Kline) (h : r ∈ insert_kline st k) :
    r ∈ st ∨ r = k := by
  unfold insert_kline at h
  split at h
  · exact Or.inl h
  · rcases List.mem_append.mp h with h' | h'
    · exact Or.inl h'
    · exact Or.inr (List.mem_singleton.mp h')

theorem insert_kline_extends (st : Store) (k : Kline) : st <+: insert_kline st k := by
  unfold insert_kline
  split
  · exact List.prefix_refl st
  · exact ⟨[k], rfl⟩

theorem tail_reconcile_foldl_extends (dbm : List Nat) :
    ∀ (klines : List Kline) (st : Store),
      st <+: klines.foldl
        (fun st k => if k.open_time ∈ dbm then st else insert_kline st k) st
  | [], st => List.prefix_refl st
  | k :: ks, st => by
    rw [List.foldl_cons]
    have hstep : st <+: (if k.open_time ∈ dbm then st else insert_kline st k) := by
      split
      · exact List.prefix_refl st
      · exact insert_kline_extends st k
    exact hstep.trans (tail_reconcile_foldl_extends dbm ks _)

theorem tail_reconcile_foldl_mem (dbm : List Nat) :
    ∀ (klines : List Kline) (st : Store) (r : Kline),
      r ∈ klines.foldl
        (fun st k => if k.open_time ∈ dbm then st else insert_kline st k) st →
      r ∈ st ∨ (r ∈ klines ∧ r.open_time ∉ dbm)
  | [], st, r, h => Or.inl h
  | k :: ks, st, r, h => by
    rw [List.foldl_cons] at h
    rcases tail_reconcile_foldl_mem dbm ks _ r h with h' | ⟨hks, hnd⟩
    · by_cases hk : k.open_time ∈ dbm
      · rw [if_pos hk] at h'
        exact Or.inl h'
      · rw [if_neg hk] at h'
        rcases mem_insert_kline st k r h' with h'' | rfl
        · exact Or.inl h''
        · exact Or.inr ⟨List.mem_cons_self _ _, hk⟩
    · exact Or.inr ⟨List.mem_cons_of_mem _ hks, hnd⟩

/-- C7.  Tail reconciliation additivity: (i) given a store already
containing keys `t` and `t+60000` and a tail fetch returning records
with keys `t+60000` (any payload) and `t+120000`, only the `t+120000`
record is appended and the stored rows — in particular the one for
`t+60000` — are unchanged; (ii) the phase never overwrites or removes an
existing row (the prior store is a prefix of the result); (iii) every
row of the result was already stored or is a fetched record whose key
was not among the store's recent keys. -/
theorem tail_reconcile_additive :
    (∀ (t : Nat) (p1 p2 q q2 : List Int),
      tail_reconcile [⟨t, p1⟩, ⟨t + 60000, p2⟩]
          [⟨t + 60000, q⟩, ⟨t + 120000, q2⟩] N_MINUTES =
        [⟨t, p1⟩, ⟨t + 60000, p2⟩, ⟨t + 120000, q2⟩]) ∧
    (∀ (store : Store) (klines : List Kline) (n : Nat),
      store <+: tail_reconcile store klines n) ∧
    (∀ (store : Store) (klines : List Kline) (n : Nat) (r : Kline),
      r ∈ tail_reconcile store klines n →
      r ∈ store ∨ (r ∈ klines ∧ r.open_time ∉ get_last_n_open_times store n)) := by
  refine ⟨fun t p1 p2 q q2 => ?_,
    fun store klines n => tail_reconcile_foldl_extends _ klines store,
    fun store klines n r h => tail_reconcile_foldl_mem _ klines store r h⟩
  have hsort : get_last_n_open_times [⟨t, p1⟩, ⟨t + 60000, p2⟩] N_MINUTES =
      [t + 60000, t] := by
    unfold get_last_n_open_times
    simp only [List.map_cons, List.map_nil, List.insertionSort, List.orderedInsert]
    rw [if_neg (by omega)]
    rfl
  unfold tail_reconcile
  simp only [hsort, List.foldl_cons, List.foldl_nil]
  rw [if_pos (by simp : t + 60000 ∈ [t + 60000, t])]
  rw [if_neg (by intro hmem; simp only [List.mem_cons, List.not_mem_nil, or_false] at hmem; omega)]
  unfold insert_kline
  rw [if_neg (by simp only [List.any_cons, List.any_nil, Bool.or_false,
    Bool.or_eq_true, beq_iff_eq]; omega)]
  rfl

/-- Witness for C3's amended claim at the stale stub source. -/
theorem no_progress_amended_witness :
    (fillLoop (fun s _ => .ok [⟨s, [2]⟩]) insOk 240000
      ((240000 - 60000) / intervalLen + 1) 60000 []).isSome := by
  apply no_progress_amended (fun s _ => .ok [⟨s, [2]⟩]) insOk 240000 60000 []
  intro s l k ks hb
  rw [Except.ok.injEq] at hb
  cases hb
  simp [lastOpenTime]

/-! ## C8: failure isolation -/

theorem sweep_foldl_not_mem (pass : PassFn) :
    ∀ (l : List String) (stores : String → Store) (sym : String), sym ∉ l →
      l.foldl (sweepStep pass) stores sym = stores sym
  | [], _, _, _ => rfl
  | s :: l', stores, sym, h => by
    rw [List.foldl_cons]
    have hne : sym ≠ s := fun he => h (he ▸ List.mem_cons_self s l')
    rw [sweep_foldl_not_mem pass l' (sweepStep pass stores s) sym
      (fun hm => h (List.mem_cons_of_mem s hm))]
    unfold sweepStep
    rw [if_neg hne]

theorem sweep_foldl_mem (pass : PassFn) :
    ∀ (l : List String), l.Nodup →
      ∀ (stores : String → Store) (sym : String), sym ∈ l →
        l.foldl (sweepStep pass) stores sym = (pass sym (stores sym)).1
  | [], _, _, sym, h => absurd h (List.not_mem_nil sym)
  | s :: l', hnd, stores, sym, h => by
    rw [List.foldl_cons]
    rcases List.mem_cons.mp h with rfl | hmem
    · have hnotin : sym ∉ l' := (List.nodup_cons.mp hnd).1
      rw [sweep_foldl_not_mem pass l' _ sym hnotin]
      unfold sweepStep
      rw [if_pos rfl]
    · have hne : sym ≠ s := by
        intro he
        exact (List.nodup_cons.mp hnd).1 (he ▸ hmem)
      have hkeep : (sweepStep pass stores s) sym = stores sym := by
        unfold sweepStep
        rw [if_neg hne]
      rw [sweep_foldl_mem pass l' (List.nodup_cons.mp hnd).2 _ sym hmem, hkeep]

/-- C8.  Failure isolation: within one sweep of `minute_loop` over
`SYMBOLS`, each symbol's store ends up exactly as its own pass leaves it
— the per-symbol `try/except` swallows any error a pass reports, so no
symbol's error propagates to, blocks, or skips any other symbol — and
over any number `n` of ticks the loop keeps running, applying each
symbol's own pass `n` times regardless of errors anywhere. -/
theorem failure_isolation (pass : PassFn) (stores : String → Store)
    (sym : String) (n : Nat) (h : sym ∈ SYMBOLS) :
    minute_sweep pass stores sym = (pass sym (stores sym)).1 ∧
    minute_loop_ticks pass stores n sym =
      (fun st => (pass sym st).1)^[n] (stores sym) := by
  have hnd : SYMBOLS.Nodup := by decide
  constructor
  · exact sweep_foldl_mem pass SYMBOLS hnd stores sym h
  · induction n with
    | zero => rfl
    | succ m ih =>
      show minute_sweep pass (minute_loop_ticks pass stores m) sym = _
      unfold minute_sweep
      rw [sweep_foldl_mem pass SYMBOLS hnd _ sym h, ih,
        Function.iterate_succ_apply']

/-- Witness for C8: a pass failing only for ETHUSDT leaves BTCUSDT's
pass unaffected within the same tick, and over three ticks. -/
theorem failure_isolation_witness :
    minute_sweep passStubB (fun _ => []) "BTCUSDT" =
      (passStubB "BTCUSDT" []).1 ∧
    minute_loop_ticks passStubB (fun _ => []) 3 "BTCUSDT" =
      (fun st => (passStubB "BTCUSDT" st).1)^[3] [] :=
  failure_isolation passStubB (fun _ => []) "BTCUSDT" 3 (by decide)

/-! ## C9: phase-level error swallowing -/

/-- C9.  The `try/except` inside `batch_fill_history`'s loop catches a
raised source fetch (i) and a raised store insert (ii) internally: the
function returns normally with everything inserted before the failure;
consequently (iii) `minute_loop`'s tail-reconcile phase for the same
symbol still runs in the same pass, applied to whatever store the
gap-fill phase returned. -/
theorem fill_error_swallowed :
    (∀ (src : SourceFn) (ins : InsertFn) (now_ms start_ms : Nat)
        (store : Store) (fuel : Nat) (e : Err),
      start_ms < now_ms →
      src start_ms (batchLimit now_ms start_ms) = .error e →
      fillLoop src ins now_ms (fuel + 1) start_ms store = some store) ∧
    (∀ (src : SourceFn) (ins : InsertFn) (now_ms start_ms : Nat)
        (store : Store) (fuel : Nat) (k : Kline) (ks : List Kline)
        (store' : Store) (e : Err),
      start_ms < now_ms →
      src start_ms (batchLimit now_ms start_ms) = .ok (k :: ks) →
      insertBatch ins store (k :: ks) = (store', some e) →
      fillLoop src ins now_ms (fuel + 1) start_ms store = some store') ∧
    (∀ (src : SourceFn) (ins : InsertFn) (now_ms fuel : Nat)
        (et : Option Nat) (tailKlines : List Kline) (store st' : Store),
      batch_fill_history src ins now_ms fuel store et = some st' →
      reconcile src ins now_ms fuel et tailKlines store =
        some (tail_reconcile st' tailKlines N_MINUTES)) := by
  refine ⟨fun src ins now_ms start_ms store fuel e h hsrc => ?_,
    fun src ins now_ms start_ms store fuel k ks store' e h hsrc hins => ?_,
    fun src ins now_ms fuel et tailKlines store st' hfill => ?_⟩
  · unfold fillLoop
    rw [if_pos h, hsrc]
  · unfold fillLoop
    rw [if_pos h, hsrc]
    dsimp only
    rw [hins]
  · unfold reconcile
    rw [hfill]
    rfl

/-! ## C10: read-side time parsing -/

theorem to_unix_ms_digit (dparse : String → Option Nat) (s : String)
    (hne : s ≠ "") (hdig : pyIsDigit s = true) :
    to_unix_ms dparse (some s) =
      .ok (some (if 10 ^ 11 < strToNat s then strToNat s
                 else strToNat s * 1000)) := by
  unfold to_unix_ms
  dsimp only
  rw [if_neg hne, if_pos hdig]

theorem to_unix_ms_nondigit (dparse : String → Option Nat) (s : String)
    (hne : s ≠ "") (hdig : pyIsDigit s = false) :
    to_unix_ms dparse (some s) =
      match dparse s with
      | some ms => .ok (some ms)
      | none => .error HttpErr.badRequest := by
  unfold to_unix_ms
  dsimp only
  rw [if_neg hne, if_neg (by simp [hdig])]

/-- C10 counterexample.  `"60000"` is a valid epoch-millisecond integer
(1970-01-01T00:01:00Z), yet `to_unix_ms` returns `60000000`, not the
input unchanged: digit strings not exceeding `10**11` are auto-detected
as seconds and multiplied by 1000. -/
theorem to_unix_ms_cex :
    to_unix_ms (fun _ => none) (some "60000") = .ok (some 60000000) ∧
    (Except.ok (some 60000000) : Except HttpErr (Option Nat)) ≠
      .ok (some 60000) := by
  constructor
  · rw [to_unix_ms_digit (fun _ => none) "60000" (by decide) (by decide)]
    have h : strToNat "60000" = 60000 := by decide
    rw [h, if_neg (by norm_num)]
  · intro h
    rw [Except.ok.injEq, Option.some.injEq] at h
    omega

/-- C10 amended.  `to_unix_ms` accepts either a digit string or a
calendar date string, auto-detected, and absent input yields no bound;
but a digit string parsed as `n` is returned unchanged only when
`n > 10**11` — otherwise it is treated as epoch seconds and multiplied
by 1000.  Non-digit strings go to the date parser; its failure raises
HTTP 400. -/
theorem to_unix_ms_amended (dparse : String → Option Nat) (s : String) (n : Nat) :
    (to_unix_ms dparse none = .ok none) ∧
    (to_unix_ms dparse (some "") = .ok none) ∧
    (s ≠ "" → pyIsDigit s = true → strToNat s = n →
      to_unix_ms dparse (some s) =
        .ok (some (if 10 ^ 11 < n then n else n * 1000))) ∧
    (s ≠ "" → pyIsDigit s = true → strToNat s = n → 10 ^ 11 < n →
      to_unix_ms dparse (some s) = .ok (some n)) ∧
    (s ≠ "" → pyIsDigit s = false → dparse s = some n →
      to_unix_ms dparse (some s) = .ok (some n)) ∧
    (s ≠ "" → pyIsDigit s = false → dparse s = none →
      to_unix_ms dparse (some s) = .error HttpErr.badRequest) := by
  refine ⟨rfl, rfl, fun hne hdig htn => ?_, fun hne hdig htn hgt => ?_,
    fun hne hdig hdp => ?_, fun hne hdig hdp => ?_⟩
  · rw [to_unix_ms_digit dparse s hne hdig, htn]
  · rw [to_unix_ms_digit dparse s hne hdig, htn, if_pos hgt]
  · rw [to_unix_ms_nondigit dparse s hne hdig, hdp]
  · rw [to_unix_ms_nondigit dparse s hne hdig, hdp]

end Collector
